import Mathlib

/-!
Verification development for the GwasServiceFHE repository.

Part 1 models the Solidity ledger contract `src/contracts/GwasServiceFHE.sol`
as a pure state-transition system.  Ciphertext handles (`euint32`) are
modelled by the 32-bit value they encrypt (`FHE.asEuint32 v` is `v`);
the external decryption oracle is modelled by a fresh-id counter
(`nextRequestId`) standing for `FHE.requestDecryption`, and the external
`FHE.checkSignatures` / `abi.decode` calls are abstracted into an
`OracleEnv` parameter.  Solidity `require` failures and arithmetic panics
become `Except` errors; a failed call reverts, i.e. leaves the state
unchanged (`execOp`).  The fields `registeredRequests`, `completedRequests`
and `submittedIds` are ghost history variables: they are only appended to,
never read by the operational code, and exist to state the claims about
registration, outstanding requests and identifier assignment.

Part 2 models the client synchronizer `loadDatasets` / `uploadDataset`
from `src/frontend/web/src/App.tsx` over an abstract key-value store,
with JSON (de)serialization abstracted into a `ClientEnv` parameter.
-/

namespace GwasLedger

/-- model of `struct EncryptedGenomeData`: `euint32` handles are modelled
by the encrypted 32-bit value, `address` by a natural number. -/
structure EncryptedGenomeData where
  id : Nat
  encryptedGenotype : Nat
  encryptedPhenotype : Nat
  institution : Nat
  timestamp : Nat
deriving DecidableEq, Repr

/-- model of `struct AnalysisResult`. -/
structure AnalysisResult where
  encryptedPValue : Nat
  encryptedOddsRatio : Nat
  isRevealed : Bool
deriving DecidableEq, Repr

/-- default value of a `mapping(uint256 => EncryptedGenomeData)` slot. -/
def EncryptedGenomeData.zero : EncryptedGenomeData :=
  { id := 0, encryptedGenotype := 0, encryptedPhenotype := 0,
    institution := 0, timestamp := 0 }

/-- default value of a `mapping(uint256 => AnalysisResult)` slot. -/
def AnalysisResult.zero : AnalysisResult :=
  { encryptedPValue := 0, encryptedOddsRatio := 0, isRevealed := false }

/-- the workflow stage that registered a decryption request (ghost data:
the contract stores both kinds of requests in the single mapping
`requestToDatasetId`). -/
inductive Stage where
  | analysis
  | reveal
deriving DecidableEq, Repr

/-- ghost record of one `requestToDatasetId[reqId] = datasetId` write. -/
structure RequestEntry where
  reqId : Nat
  stage : Stage
  datasetId : Nat
deriving DecidableEq, Repr

/-- events emitted by the contract. -/
inductive Event where
  | DatasetSubmitted (id : Nat) (institution : Nat)
  | AnalysisRequested (id : Nat)
  | ResultDecrypted (id : Nat)
deriving DecidableEq, Repr

/-- errors: the `require` messages of the contract plus the Solidity 0.8
checked-arithmetic panic and `abi.decode` / array-index failures. -/
inductive ContractError where
  | notAuthorized
  | alreadyAnalyzed
  | invalidRequest
  | analysisNotComplete
  | proofVerificationFailed
  | decodeFailure
  | arithmeticOverflow
deriving DecidableEq, Repr

/-- contract storage plus the event log and ghost history variables. -/
structure ContractState where
  datasetCount : Nat
  encryptedDatasets : Nat → EncryptedGenomeData
  analysisResults : Nat → AnalysisResult
  requestToDatasetId : Nat → Nat
  nextRequestId : Nat
  events : List Event
  registeredRequests : List RequestEntry
  completedRequests : List Nat
  submittedIds : List Nat

/-- pointwise update of a mapping. -/
def setAt {α : Type} (f : Nat → α) (k : Nat) (v : α) : Nat → α :=
  fun x => if x = k then v else f x

/-- environment abstracting the external FHE library calls made inside the
oracle callbacks: `FHE.checkSignatures` and `abi.decode(cleartexts, (uint32[]))`.
Byte strings are modelled as lists of naturals. -/
structure OracleEnv where
  sigOk : Nat → List Nat → List Nat → Bool
  decodeU32Array : List Nat → Option (List Nat)

/-- initial (deployed) contract state. -/
def initialState : ContractState :=
  { datasetCount := 0,
    encryptedDatasets := fun _ => EncryptedGenomeData.zero,
    analysisResults := fun _ => AnalysisResult.zero,
    requestToDatasetId := fun _ => 0,
    nextRequestId := 1,
    events := [],
    registeredRequests := [],
    completedRequests := [],
    submittedIds := [] }

/-- embedding of `submitEncryptedDataset`: allocates `datasetCount + 1`,
stores the record, initialises an empty analysis result, emits
`DatasetSubmitted`.  It cannot fail. -/
def submitEncryptedDataset (sender g p ts : Nat) (st : ContractState) :
    ContractState :=
  let newId := st.datasetCount + 1
  { st with
    datasetCount := newId,
    encryptedDatasets := setAt st.encryptedDatasets newId
      { id := newId, encryptedGenotype := g, encryptedPhenotype := p,
        institution := sender, timestamp := ts },
    analysisResults := setAt st.analysisResults newId
      { encryptedPValue := 0, encryptedOddsRatio := 0, isRevealed := false },
    events := st.events ++ [Event.DatasetSubmitted newId sender],
    submittedIds := st.submittedIds ++ [newId] }

/-- embedding of `requestGWASAnalysis`: `onlyInstitution` modifier, then
`require(!analysisResults[datasetId].isRevealed)`, then issues a fresh
decryption request and records the correlation. -/
def requestGWASAnalysis (sender datasetId : Nat) (st : ContractState) :
    Except ContractError ContractState :=
  if sender ≠ (st.encryptedDatasets datasetId).institution then
    Except.error ContractError.notAuthorized
  else if (st.analysisResults datasetId).isRevealed then
    Except.error ContractError.alreadyAnalyzed
  else
    let reqId := st.nextRequestId
    Except.ok { st with
      requestToDatasetId := setAt st.requestToDatasetId reqId datasetId,
      nextRequestId := reqId + 1,
      events := st.events ++ [Event.AnalysisRequested datasetId],
      registeredRequests := st.registeredRequests ++
        [{ reqId := reqId, stage := Stage.analysis, datasetId := datasetId }] }

/-- embedding of `calculatePValue`: Solidity 0.8 checked `uint32` addition,
`none` models the arithmetic-overflow revert. -/
def calculatePValue (genotype phenotype : Nat) : Option Nat :=
  if genotype + phenotype < 2 ^ 32 then some (genotype + phenotype) else none

/-- embedding of `calculateOddsRatio`: checked `uint32` multiplication. -/
def calculateOddsRatio (genotype phenotype : Nat) : Option Nat :=
  if genotype * phenotype < 2 ^ 32 then some (genotype * phenotype) else none

/-- embedding of the oracle callback `performAnalysis`: resolves the request,
requires a not-yet-analyzed dataset, verifies signatures, decodes the
cleartext as `uint32[]`, reads elements 0 and 1 (reverting if absent),
computes the two statistics with checked arithmetic, stores them
re-encrypted and sets `isRevealed`, emitting `ResultDecrypted`. -/
def performAnalysis (env : OracleEnv) (requestId : Nat)
    (cleartexts proof : List Nat) (st : ContractState) :
    Except ContractError ContractState :=
  let datasetId := st.requestToDatasetId requestId
  if datasetId = 0 then Except.error ContractError.invalidRequest
  else if (st.analysisResults datasetId).isRevealed then
    Except.error ContractError.alreadyAnalyzed
  else if ¬ env.sigOk requestId cleartexts proof then
    Except.error ContractError.proofVerificationFailed
  else
    match env.decodeU32Array cleartexts with
    | none => Except.error ContractError.decodeFailure
    | some values =>
      match values with
      | genotype :: phenotype :: _ =>
        match calculatePValue genotype phenotype with
        | none => Except.error ContractError.arithmeticOverflow
        | some pValue =>
          match calculateOddsRatio genotype phenotype with
          | none => Except.error ContractError.arithmeticOverflow
          | some oddsRatio =>
            Except.ok { st with
              analysisResults := setAt st.analysisResults datasetId
                { encryptedPValue := pValue, encryptedOddsRatio := oddsRatio,
                  isRevealed := true },
              events := st.events ++ [Event.ResultDecrypted datasetId],
              completedRequests := st.completedRequests ++ [requestId] }
      | _ => Except.error ContractError.decodeFailure

/-- embedding of the view `getAnalysisResult`. -/
def getAnalysisResult (st : ContractState) (datasetId : Nat) :
    Nat × Nat × Bool :=
  ((st.analysisResults datasetId).encryptedPValue,
   (st.analysisResults datasetId).encryptedOddsRatio,
   (st.analysisResults datasetId).isRevealed)

/-- embedding of `requestResultDecryption`: `onlyInstitution`, then
`require(result.isRevealed, "Analysis not complete")`, then issues a fresh
decryption request over the two result ciphertexts.  No event is emitted. -/
def requestResultDecryption (sender datasetId : Nat) (st : ContractState) :
    Except ContractError ContractState :=
  if sender ≠ (st.encryptedDatasets datasetId).institution then
    Except.error ContractError.notAuthorized
  else if ¬ (st.analysisResults datasetId).isRevealed then
    Except.error ContractError.analysisNotComplete
  else
    let reqId := st.nextRequestId
    Except.ok { st with
      requestToDatasetId := setAt st.requestToDatasetId reqId datasetId,
      nextRequestId := reqId + 1,
      registeredRequests := st.registeredRequests ++
        [{ reqId := reqId, stage := Stage.reveal, datasetId := datasetId }] }

/-- embedding of the oracle callback `decryptFinalResults`: resolves the
request, verifies signatures, decodes the cleartext — and then does nothing
with it (the source ends with the comment `Process decrypted results as
needed`).  Only the ghost completion log changes on success. -/
def decryptFinalResults (env : OracleEnv) (requestId : Nat)
    (cleartexts proof : List Nat) (st : ContractState) :
    Except ContractError ContractState :=
  let datasetId := st.requestToDatasetId requestId
  if datasetId = 0 then Except.error ContractError.invalidRequest
  else if ¬ env.sigOk requestId cleartexts proof then
    Except.error ContractError.proofVerificationFailed
  else
    match env.decodeU32Array cleartexts with
    | none => Except.error ContractError.decodeFailure
    | some _ =>
      Except.ok { st with completedRequests := st.completedRequests ++ [requestId] }

/-- the public state-changing entry points of the contract. -/
inductive Op where
  | submit (sender g p ts : Nat)
  | requestAnalysis (sender datasetId : Nat)
  | completeAnalysis (requestId : Nat) (cleartexts proof : List Nat)
  | requestReveal (sender datasetId : Nat)
  | completeReveal (requestId : Nat) (cleartexts proof : List Nat)
deriving DecidableEq, Repr

/-- revert semantics: a failed call leaves the state unchanged. -/
def applyResult (st : ContractState) :
    Except ContractError ContractState → ContractState
  | Except.ok st' => st'
  | Except.error _ => st

/-- one transaction against the contract. -/
def execOp (env : OracleEnv) (st : ContractState) : Op → ContractState
  | Op.submit sender g p ts => submitEncryptedDataset sender g p ts st
  | Op.requestAnalysis sender d => applyResult st (requestGWASAnalysis sender d st)
  | Op.completeAnalysis r ct pf => applyResult st (performAnalysis env r ct pf st)
  | Op.requestReveal sender d => applyResult st (requestResultDecryption sender d st)
  | Op.completeReveal r ct pf => applyResult st (decryptFinalResults env r ct pf st)

/-- a whole transaction history from deployment. -/
def execTrace (env : OracleEnv) (ops : List Op) : ContractState :=
  ops.foldl (execOp env) initialState

/-- an outstanding request of a dataset at a stage: registered in the
correlation table but with no completed callback yet. -/
def outstandingRequests (st : ContractState) (datasetId : Nat) (s : Stage) :
    List RequestEntry :=
  st.registeredRequests.filter (fun e =>
    e.datasetId = datasetId && e.stage = s && ¬ st.completedRequests.contains e.reqId)

/-- test whether a transaction is a `submitEncryptedDataset` call. -/
def Op.isSubmit : Op → Bool
  | Op.submit _ _ _ _ => true
  | _ => false

/-- reachable-state invariant of the ledger: request ids never exceed the
oracle's fresh-id counter, each id is registered at most once, every
nonzero correlation entry has a registration record, and the submitted
identifiers are exactly `1, 2, ..., datasetCount` in order. -/
def Inv (st : ContractState) : Prop :=
  1 ≤ st.nextRequestId ∧
  (∀ e ∈ st.registeredRequests, e.reqId < st.nextRequestId) ∧
  (st.registeredRequests.map RequestEntry.reqId).Nodup ∧
  (∀ r, st.requestToDatasetId r ≠ 0 → ∃ e ∈ st.registeredRequests, e.reqId = r) ∧
  st.submittedIds = List.range' 1 st.datasetCount

/-- concrete oracle environment for witnesses: every proof verifies and a
cleartext byte string decodes to itself as a word list. -/
def env0 : OracleEnv :=
  { sigOk := fun _ _ _ => true, decodeU32Array := fun ct => some ct }

/-- concrete history: institution 1 submits dataset 1 (genotype 2,
phenotype 3) and requests analysis, registering request id 1. -/
def traceA : List Op := [Op.submit 1 2 3 10, Op.requestAnalysis 1 1]

/-- the state after `traceA`. -/
def stA : ContractState := execTrace env0 traceA

/-- concrete history extending `traceA` with a second `requestGWASAnalysis`
call before any callback, registering request id 2 for the same dataset
and stage. -/
def traceB : List Op :=
  [Op.submit 1 2 3 10, Op.requestAnalysis 1 1, Op.requestAnalysis 1 1]

/-- the state after `traceB`. -/
def stB : ContractState := execTrace env0 traceB

/-- concrete history: submit, request analysis, oracle analysis callback on
request 1, then request reveal, registering reveal request id 2. -/
def traceC : List Op :=
  [Op.submit 1 2 3 10, Op.requestAnalysis 1 1,
   Op.completeAnalysis 1 [2, 3] [], Op.requestReveal 1 1]

/-- the state after `traceC`. -/
def stC : ContractState := execTrace env0 traceC

/-- the state after `traceC` plus a successful `decryptFinalResults`
callback on reveal request 2: only the ghost completion log differs from
`stC`. -/
def stC' : ContractState :=
  { stC with completedRequests := stC.completedRequests ++ [2] }

/-- the state after submit, request analysis and the analysis callback. -/
def stD : ContractState :=
  execTrace env0 [Op.submit 1 2 3 10, Op.requestAnalysis 1 1,
    Op.completeAnalysis 1 [2, 3] []]

end GwasLedger

namespace GwasClient

/-- shape of the JSON record written by `uploadDataset` and read back by
`loadDatasets` (the parsed untyped JSON blob: `status` may be absent, in
which case `loadDatasets` defaults it to `"pending"`). -/
structure RecJson where
  data : String
  timestamp : Int
  institution : String
  studyType : String
  status : Option String
deriving DecidableEq, Repr

/-- the `GwasData` interface of `App.tsx`. -/
structure GwasData where
  id : String
  encryptedData : String
  timestamp : Int
  institution : String
  studyType : String
  status : String
deriving DecidableEq, Repr

/-- the `newDataset` form state used by `uploadDataset`. -/
structure NewDataset where
  studyType : String
  description : String
  genomicData : String
deriving DecidableEq, Repr

/-- the external key-value surface (`contract.getData`): every key maps to a
byte string, the empty byte string standing for an absent key. -/
abbrev Store := String → List Nat

/-- environment abstracting the external JSON / base64 library functions
(`JSON.parse`, `JSON.stringify`, `btoa`, `ethers.toUtf8String` and
`ethers.toUtf8Bytes` are all external to the component). -/
structure ClientEnv where
  parseKeys : List Nat → Option (List String)
  parseRecord : List Nat → Option RecJson
  serKeys : List String → List Nat
  serRecord : RecJson → List Nat
  stringifyNew : NewDataset → String
  btoa : String → String

/-- embedding of the index fetch in `loadDatasets`: reads `"gwas_keys"`,
parses it when non-empty, and fails open to `[]` on a parse error. -/
def indexKeys (env : ClientEnv) (store : Store) : List String :=
  let keysBytes := store "gwas_keys"
  if keysBytes.length > 0 then (env.parseKeys keysBytes).getD [] else []

/-- embedding of the per-key fetch in the `loadDatasets` loop: reads
`gwas_<key>`, skips empty or unparseable records, and defaults a missing
`status` to `"pending"`. -/
def readRecord (env : ClientEnv) (store : Store) (key : String) :
    Option GwasData :=
  let datasetBytes := store ("gwas_" ++ key)
  if datasetBytes.length > 0 then
    match env.parseRecord datasetBytes with
    | some ds => some
        { id := key, encryptedData := ds.data, timestamp := ds.timestamp,
          institution := ds.institution, studyType := ds.studyType,
          status := ds.status.getD "pending" }
    | none => none
  else none

/-- records surviving the fetch-and-parse loop of `loadDatasets`, in index
order. -/
def survivingRecords (env : ClientEnv) (store : Store) : List GwasData :=
  (indexKeys env store).filterMap (readRecord env store)

/-- embedding of `loadDatasets`: the surviving records sorted by timestamp
descending (`list.sort((a, b) => b.timestamp - a.timestamp)`, a stable
sort). -/
def loadDatasets (env : ClientEnv) (store : Store) : List GwasData :=
  (survivingRecords env store).mergeSort
    (fun a b => decide (b.timestamp ≤ a.timestamp))

/-- the client-side identifier generated by `uploadDataset`:
`${Date.now()}-${Math.random().toString(36).substring(2, 9)}`, with the
clock value and the random suffix as parameters. -/
def datasetIdOf (nowMs : Nat) (rand : String) : String :=
  toString nowMs ++ "-" ++ rand

/-- the JSON record built by `uploadDataset`: the simulated-FHE payload
(`FHE-GWAS-` plus base64 of the form data), a second-resolution timestamp,
the connected account, the chosen study type, status `"pending"`. -/
def uploadRecord (env : ClientEnv) (account : String) (nds : NewDataset)
    (nowMs : Nat) : RecJson :=
  { data := "FHE-GWAS-" ++ env.btoa (env.stringifyNew nds),
    timestamp := (nowMs / 1000 : Nat),
    institution := account, studyType := nds.studyType,
    status := some "pending" }

/-- the store after the first write of `uploadDataset` (the record write
under `gwas_<id>`). -/
def store1Of (env : ClientEnv) (store : Store) (account : String)
    (nds : NewDataset) (nowMs : Nat) (rand : String) : Store :=
  fun k =>
    if k = "gwas_" ++ datasetIdOf nowMs rand then
      env.serRecord (uploadRecord env account nds nowMs)
    else store k

/-- the index list written back by `uploadDataset`: the re-read index
(failing open to `[]` when empty or unparseable — the same read pattern as
`loadDatasets`, here against the store holding the new record) with the
new identifier appended. -/
def uploadIndex (env : ClientEnv) (store : Store) (account : String)
    (nds : NewDataset) (nowMs : Nat) (rand : String) : List String :=
  indexKeys env (store1Of env store account nds nowMs rand) ++
    [datasetIdOf nowMs rand]

/-- embedding of `uploadDataset`: writes the record under `gwas_<id>`,
re-reads the index, appends the identifier and writes the index back.
Returns the resulting store and the identifier. -/
def uploadDataset (env : ClientEnv) (store : Store) (account : String)
    (nds : NewDataset) (nowMs : Nat) (rand : String) : Store × String :=
  let store1 := store1Of env store account nds nowMs rand
  let keys2 := uploadIndex env store account nds nowMs rand
  (fun k => if k = "gwas_keys" then env.serKeys keys2 else store1 k,
   datasetIdOf nowMs rand)

/-- concrete record for witness computations. -/
def recW : RecJson :=
  { data := "d", timestamp := 5, institution := "inst1", studyType := "s",
    status := none }

/-- the record `uploadDataset` builds for the concrete witness inputs
(account `"acct"`, study type `"st1"`, clock 1000 ms). -/
def recW9 : RecJson :=
  { data := "FHE-GWAS-n", timestamp := 1, institution := "acct",
    studyType := "st1", status := some "pending" }

/-- concrete client environment for witnesses of the list claims: index
bytes `[1]` parse to `["a", "b"]`, record bytes `[2]` parse to `recW`,
anything else fails to parse. -/
def envC : ClientEnv :=
  { parseKeys := fun b => if b = [1] then some ["a", "b"] else none,
    parseRecord := fun b => if b = [2] then some recW else none,
    serKeys := fun _ => [1], serRecord := fun _ => [2],
    stringifyNew := fun _ => "n", btoa := fun s => s }

/-- concrete store: a parseable index naming `a` (parseable record) and `b`
(unparseable record bytes `[7]`). -/
def storeC8 : Store :=
  fun k => if k = "gwas_keys" then [1]
    else if k = "gwas_a" then [2]
    else if k = "gwas_b" then [7]
    else []

/-- concrete store whose non-empty index bytes `[9]` fail to parse. -/
def storeBad : Store := fun k => if k = "gwas_keys" then [9] else []

/-- concrete client environment for the upload witnesses: index bytes `[1]`
parse to `["1000-x"]`, record bytes `[2]` parse to `recW9`; the
serializers emit exactly those bytes. -/
def envW : ClientEnv :=
  { parseKeys := fun b => if b = [1] then some ["1000-x"] else none,
    parseRecord := fun b => if b = [2] then some recW9 else none,
    serKeys := fun _ => [1], serRecord := fun _ => [2],
    stringifyNew := fun _ => "n", btoa := fun s => s }

/-- the empty store. -/
def storeEmpty : Store := fun _ => []

/-- concrete upload form data for witnesses. -/
def ndsW : NewDataset :=
  { studyType := "st1", description := "", genomicData := "g" }

/-- the `GwasData` row that `loadDatasets` reconstructs for the record just
written by `uploadDataset`. -/
def loadedUploadRecord (env : ClientEnv) (account : String)
    (nds : NewDataset) (nowMs : Nat) (rand : String) : GwasData :=
  { id := datasetIdOf nowMs rand,
    encryptedData := (uploadRecord env account nds nowMs).data,
    timestamp := (uploadRecord env account nds nowMs).timestamp,
    institution := account, studyType := nds.studyType,
    status := "pending" }

/-- concrete store with corrupt (non-empty, unparseable) index bytes `[9]`
and one previously stored record under `gwas_old`. -/
def storeC10 : Store :=
  fun k => if k = "gwas_keys" then [9]
    else if k = "gwas_old" then [2]
    else []

end GwasClient


namespace GwasLedger

theorem setAt_same {α : Type} (f : Nat → α) (k : Nat) (v : α) :
    setAt f k v k = v := by simp [setAt]

theorem setAt_other {α : Type} (f : Nat → α) (k : Nat) (v : α) (x : Nat)
    (h : x ≠ k) : setAt f k v x = f x := by simp [setAt, h]

theorem requestGWASAnalysis_ok_inv {sender datasetId : Nat} {st st' : ContractState}
    (h : requestGWASAnalysis sender datasetId st = Except.ok st') :
    sender = (st.encryptedDatasets datasetId).institution ∧
    (st.analysisResults datasetId).isRevealed = false ∧
    st' = { st with
      requestToDatasetId := setAt st.requestToDatasetId st.nextRequestId datasetId,
      nextRequestId := st.nextRequestId + 1,
      events := st.events ++ [Event.AnalysisRequested datasetId],
      registeredRequests := st.registeredRequests ++
        [{ reqId := st.nextRequestId, stage := Stage.analysis,
           datasetId := datasetId }] } := by
  by_cases h1 : sender = (st.encryptedDatasets datasetId).institution
  · by_cases h2 : (st.analysisResults datasetId).isRevealed = true
    · simp [requestGWASAnalysis, h1, h2] at h
    · simp [requestGWASAnalysis, h1, h2] at h
      exact ⟨h1, by simpa using h2, h.symm⟩
  · simp [requestGWASAnalysis, h1] at h

theorem requestResultDecryption_ok_inv {sender datasetId : Nat} {st st' : ContractState}
    (h : requestResultDecryption sender datasetId st = Except.ok st') :
    sender = (st.encryptedDatasets datasetId).institution ∧
    (st.analysisResults datasetId).isRevealed = true ∧
    st' = { st with
      requestToDatasetId := setAt st.requestToDatasetId st.nextRequestId datasetId,
      nextRequestId := st.nextRequestId + 1,
      registeredRequests := st.registeredRequests ++
        [{ reqId := st.nextRequestId, stage := Stage.reveal,
           datasetId := datasetId }] } := by
  by_cases h1 : sender = (st.encryptedDatasets datasetId).institution
  · by_cases h2 : (st.analysisResults datasetId).isRevealed = true
    · simp [requestResultDecryption, h1, h2] at h
      exact ⟨h1, h2, h.symm⟩
    · simp [requestResultDecryption, h1, h2] at h
  · simp [requestResultDecryption, h1] at h

theorem calculatePValue_eq_some {g p v : Nat} (h : calculatePValue g p = some v) :
    g + p < 2 ^ 32 ∧ v = g + p := by
  unfold calculatePValue at h
  split_ifs at h with hc
  exact ⟨hc, by injection h with h'; exact h'.symm⟩

theorem calculateOddsRatio_eq_some {g p v : Nat} (h : calculateOddsRatio g p = some v) :
    g * p < 2 ^ 32 ∧ v = g * p := by
  unfold calculateOddsRatio at h
  split_ifs at h with hc
  exact ⟨hc, by injection h with h'; exact h'.symm⟩

theorem performAnalysis_ok_inv {env : OracleEnv} {r : Nat} {ct pf : List Nat}
    {st st' : ContractState}
    (h : performAnalysis env r ct pf st = Except.ok st') :
    st.requestToDatasetId r ≠ 0 ∧
    (st.analysisResults (st.requestToDatasetId r)).isRevealed = false ∧
    ∃ g p rest, env.decodeU32Array ct = some (g :: p :: rest) ∧
      g + p < 2 ^ 32 ∧ g * p < 2 ^ 32 ∧
      st' = { st with
        analysisResults := setAt st.analysisResults (st.requestToDatasetId r)
          { encryptedPValue := g + p, encryptedOddsRatio := g * p,
            isRevealed := true },
        events := st.events ++ [Event.ResultDecrypted (st.requestToDatasetId r)],
        completedRequests := st.completedRequests ++ [r] } := by
  by_cases h1 : st.requestToDatasetId r = 0
  · simp [performAnalysis, h1] at h
  by_cases h2 : (st.analysisResults (st.requestToDatasetId r)).isRevealed = true
  · simp [performAnalysis, h1, h2] at h
  by_cases h3 : env.sigOk r ct pf = true
  · rcases hdec : env.decodeU32Array ct with _ | (_ | ⟨g, _ | ⟨p, rest⟩⟩)
    · simp [performAnalysis, h1, h2, h3, hdec] at h
    · simp [performAnalysis, h1, h2, h3, hdec] at h
    · simp [performAnalysis, h1, h2, h3, hdec] at h
    · rcases hcp : calculatePValue g p with _ | pv
      · simp [performAnalysis, h1, h2, h3, hdec, hcp] at h
      rcases hco : calculateOddsRatio g p with _ | ov
      · simp [performAnalysis, h1, h2, h3, hdec, hcp, hco] at h
      obtain ⟨hp, hpv⟩ := calculatePValue_eq_some hcp
      obtain ⟨ho, hov⟩ := calculateOddsRatio_eq_some hco
      simp [performAnalysis, h1, h2, h3, hdec, hcp, hco] at h
      subst hpv hov
      exact ⟨h1, by simpa using h2, g, p, rest, rfl, hp, ho, h.symm⟩
  · simp [performAnalysis, h1, h2, h3] at h

theorem decryptFinalResults_ok_inv {env : OracleEnv} {r : Nat} {ct pf : List Nat}
    {st st' : ContractState}
    (h : decryptFinalResults env r ct pf st = Except.ok st') :
    st.requestToDatasetId r ≠ 0 ∧
    st' = { st with completedRequests := st.completedRequests ++ [r] } := by
  by_cases h1 : st.requestToDatasetId r = 0
  · simp [decryptFinalResults, h1] at h
  by_cases h2 : env.sigOk r ct pf = true
  · rcases hdec : env.decodeU32Array ct with _ | values
    · simp [decryptFinalResults, h1, h2, hdec] at h
    · simp [decryptFinalResults, h1, h2, hdec] at h
      exact ⟨h1, h.symm⟩
  · simp [decryptFinalResults, h1, h2] at h

theorem inv_initial : Inv initialState := by
  refine ⟨le_refl 1, ?_, ?_, ?_, ?_⟩ <;> simp [initialState]

theorem inv_register {st : ContractState} {d : Nat} {s : Stage}
    (h : Inv st) :
    Inv { st with
      requestToDatasetId := setAt st.requestToDatasetId st.nextRequestId d,
      nextRequestId := st.nextRequestId + 1,
      registeredRequests := st.registeredRequests ++
        [{ reqId := st.nextRequestId, stage := s, datasetId := d }] } := by
  obtain ⟨hn, hlt, hnd, hreg, hsub⟩ := h
  refine ⟨Nat.le_succ_of_le hn, ?_, ?_, ?_, hsub⟩
  · intro e he
    rcases List.mem_append.mp he with he | he
    · exact Nat.lt_succ_of_lt (hlt e he)
    · simp only [List.mem_singleton] at he
      subst he
      exact Nat.lt_succ_self _
  · simp only [List.map_append, List.map_cons, List.map_nil]
    rw [List.nodup_append]
    refine ⟨hnd, List.nodup_singleton _, ?_⟩
    intro a ha hb
    simp only [List.mem_singleton] at hb
    subst hb
    obtain ⟨e, he, hee⟩ := List.mem_map.mp ha
    exact absurd (hee ▸ hlt e he) (Nat.lt_irrefl _)
  · intro r hr
    dsimp only at hr ⊢
    by_cases hrn : r = st.nextRequestId
    · subst hrn
      exact ⟨_, List.mem_append_right _ (List.mem_singleton_self _), rfl⟩
    · rw [setAt_other _ _ _ _ hrn] at hr
      obtain ⟨e, he, hee⟩ := hreg r hr
      exact ⟨e, List.mem_append_left _ he, hee⟩

theorem inv_execOp (env : OracleEnv) (st : ContractState) (op : Op)
    (h : Inv st) : Inv (execOp env st op) := by
  obtain ⟨hn, hlt, hnd, hreg, hsub⟩ := h
  cases op with
  | submit sender g p ts =>
    refine ⟨hn, hlt, hnd, hreg, ?_⟩
    simp only [execOp, submitEncryptedDataset]
    rw [hsub, List.range'_concat]
    simp [Nat.add_comm]
  | requestAnalysis sender d =>
    rcases hr : requestGWASAnalysis sender d st with e | st'
    · simpa [execOp, hr, applyResult] using ⟨hn, hlt, hnd, hreg, hsub⟩
    · obtain ⟨-, -, hst'⟩ := requestGWASAnalysis_ok_inv hr
      subst hst'
      simp only [execOp, hr, applyResult]
      exact inv_register ⟨hn, hlt, hnd, hreg, hsub⟩
  | requestReveal sender d =>
    rcases hr : requestResultDecryption sender d st with e | st'
    · simpa [execOp, hr, applyResult] using ⟨hn, hlt, hnd, hreg, hsub⟩
    · obtain ⟨-, -, hst'⟩ := requestResultDecryption_ok_inv hr
      subst hst'
      simp only [execOp, hr, applyResult]
      exact inv_register ⟨hn, hlt, hnd, hreg, hsub⟩
  | completeAnalysis r ct pf =>
    rcases hr : performAnalysis env r ct pf st with e | st'
    · simpa [execOp, hr, applyResult] using ⟨hn, hlt, hnd, hreg, hsub⟩
    · obtain ⟨-, -, g, p, rest, -, -, -, hst'⟩ := performAnalysis_ok_inv hr
      subst hst'
      simp only [execOp, hr, applyResult]
      exact ⟨hn, hlt, hnd, hreg, hsub⟩
  | completeReveal r ct pf =>
    rcases hr : decryptFinalResults env r ct pf st with e | st'
    · simpa [execOp, hr, applyResult] using ⟨hn, hlt, hnd, hreg, hsub⟩
    · obtain ⟨-, hst'⟩ := decryptFinalResults_ok_inv hr
      subst hst'
      simp only [execOp, hr, applyResult]
      exact ⟨hn, hlt, hnd, hreg, hsub⟩

theorem inv_foldl (env : OracleEnv) :
    ∀ (l : List Op) (s : ContractState), Inv s → Inv (l.foldl (execOp env) s)
  | [], s, hs => hs
  | o :: l, s, hs => inv_foldl env l (execOp env s o) (inv_execOp env s o hs)

theorem inv_execTrace (env : OracleEnv) (ops : List Op) :
    Inv (execTrace env ops) :=
  inv_foldl env ops initialState inv_initial

theorem datasetCount_execOp (env : OracleEnv) (st : ContractState) (op : Op) :
    (execOp env st op).datasetCount =
      st.datasetCount + (if op.isSubmit then 1 else 0) := by
  cases op with
  | submit sender g p ts => simp [execOp, submitEncryptedDataset, Op.isSubmit]
  | requestAnalysis sender d =>
    rcases hr : requestGWASAnalysis sender d st with e | st'
    · simp [execOp, hr, applyResult, Op.isSubmit]
    · obtain ⟨-, -, hst'⟩ := requestGWASAnalysis_ok_inv hr
      subst hst'
      simp [execOp, hr, applyResult, Op.isSubmit]
  | requestReveal sender d =>
    rcases hr : requestResultDecryption sender d st with e | st'
    · simp [execOp, hr, applyResult, Op.isSubmit]
    · obtain ⟨-, -, hst'⟩ := requestResultDecryption_ok_inv hr
      subst hst'
      simp [execOp, hr, applyResult, Op.isSubmit]
  | completeAnalysis r ct pf =>
    rcases hr : performAnalysis env r ct pf st with e | st'
    · simp [execOp, hr, applyResult, Op.isSubmit]
    · obtain ⟨-, -, g, p, rest, -, -, -, hst'⟩ := performAnalysis_ok_inv hr
      subst hst'
      simp [execOp, hr, applyResult, Op.isSubmit]
  | completeReveal r ct pf =>
    rcases hr : decryptFinalResults env r ct pf st with e | st'
    · simp [execOp, hr, applyResult, Op.isSubmit]
    · obtain ⟨-, hst'⟩ := decryptFinalResults_ok_inv hr
      subst hst'
      simp [execOp, hr, applyResult, Op.isSubmit]

theorem datasetCount_foldl (env : OracleEnv) :
    ∀ (l : List Op) (s : ContractState),
      (l.foldl (execOp env) s).datasetCount =
        s.datasetCount + l.countP (fun o => o.isSubmit) := by
  intro l
  induction l with
  | nil => intro s; simp
  | cons o l ih =>
    intro s
    rw [List.foldl_cons, ih, datasetCount_execOp, List.countP_cons]
    rcases ho : o.isSubmit <;> simp [ho] <;> omega

theorem datasetCount_execTrace (env : OracleEnv) (ops : List Op) :
    (execTrace env ops).datasetCount = ops.countP (fun o => o.isSubmit) := by
  rw [execTrace, datasetCount_foldl]
  simp [initialState]

theorem requestToDatasetId_persistent (env : OracleEnv) {st : ContractState}
    (op : Op) (r : Nat) (hInv : Inv st) (hr : st.requestToDatasetId r ≠ 0) :
    (execOp env st op).requestToDatasetId r = st.requestToDatasetId r := by
  obtain ⟨hn, hlt, hnd, hreg, hsub⟩ := hInv
  have hrlt : r < st.nextRequestId := by
    obtain ⟨e, he, hee⟩ := hreg r hr
    exact hee ▸ hlt e he
  have hrne : r ≠ st.nextRequestId := Nat.ne_of_lt hrlt
  cases op with
  | submit sender g p ts => simp [execOp, submitEncryptedDataset]
  | requestAnalysis sender d =>
    rcases hq : requestGWASAnalysis sender d st with e | st'
    · simp [execOp, hq, applyResult]
    · obtain ⟨-, -, hst'⟩ := requestGWASAnalysis_ok_inv hq
      subst hst'
      simp [execOp, hq, applyResult, setAt_other _ _ _ _ hrne]
  | requestReveal sender d =>
    rcases hq : requestResultDecryption sender d st with e | st'
    · simp [execOp, hq, applyResult]
    · obtain ⟨-, -, hst'⟩ := requestResultDecryption_ok_inv hq
      subst hst'
      simp [execOp, hq, applyResult, setAt_other _ _ _ _ hrne]
  | completeAnalysis q ct pf =>
    rcases hq : performAnalysis env q ct pf st with e | st'
    · simp [execOp, hq, applyResult]
    · obtain ⟨-, -, g, p, rest, -, -, -, hst'⟩ := performAnalysis_ok_inv hq
      subst hst'
      simp [execOp, hq, applyResult]
  | completeReveal q ct pf =>
    rcases hq : decryptFinalResults env q ct pf st with e | st'
    · simp [execOp, hq, applyResult]
    · obtain ⟨-, hst'⟩ := decryptFinalResults_ok_inv hq
      subst hst'
      simp [execOp, hq, applyResult]

theorem calculatePValue_of_lt {g p : Nat} (h : g + p < 2 ^ 32) :
    calculatePValue g p = some (g + p) := if_pos h

theorem calculatePValue_of_ge {g p : Nat} (h : 2 ^ 32 ≤ g + p) :
    calculatePValue g p = none := if_neg (Nat.not_lt.mpr h)

theorem calculateOddsRatio_of_lt {g p : Nat} (h : g * p < 2 ^ 32) :
    calculateOddsRatio g p = some (g * p) := if_pos h

theorem calculateOddsRatio_of_ge {g p : Nat} (h : 2 ^ 32 ≤ g * p) :
    calculateOddsRatio g p = none := if_neg (Nat.not_lt.mpr h)

/-- Claim C1, counterexample: in the reachable state `stC`, request 2 is a
registered reveal request, and the `decryptFinalResults` call on it
succeeds yet stores nothing, emits nothing, and changes no contract field:
the post-state `stC'` differs from `stC` only in the ghost completion log.
So a successful `completeReveal` neither stores/emits the decrypted final
values nor moves the dataset to a `revealed` status. -/
theorem completeReveal_noop_cex :
    stC.registeredRequests =
      [{ reqId := 1, stage := Stage.analysis, datasetId := 1 },
       { reqId := 2, stage := Stage.reveal, datasetId := 1 }] ∧
    decryptFinalResults env0 2 [5, 6] [] stC = Except.ok stC' ∧
    stC'.events = stC.events ∧
    stC'.analysisResults = stC.analysisResults ∧
    stC'.encryptedDatasets = stC.encryptedDatasets ∧
    stC'.requestToDatasetId = stC.requestToDatasetId ∧
    stC'.datasetCount = stC.datasetCount ∧
    stC'.nextRequestId = stC.nextRequestId :=
  ⟨by decide, rfl, rfl, rfl, rfl, rfl, rfl, rfl⟩

/-- Claim C1, amended: a successful `completeReveal` (`decryptFinalResults`)
call verifies the proof and decodes the cleartext but then discards the
decrypted values: it stores nothing, emits no event, and leaves every
contract storage field unchanged; the contract has no `revealed` status
distinct from the `isRevealed` flag set by `performAnalysis`. -/
theorem completeReveal_changes_nothing (env : OracleEnv) (r : Nat)
    (ct pf : List Nat) (st st' : ContractState)
    (h : decryptFinalResults env r ct pf st = Except.ok st') :
    st'.datasetCount = st.datasetCount ∧
    st'.encryptedDatasets = st.encryptedDatasets ∧
    st'.analysisResults = st.analysisResults ∧
    st'.requestToDatasetId = st.requestToDatasetId ∧
    st'.nextRequestId = st.nextRequestId ∧
    st'.events = st.events ∧
    st'.registeredRequests = st.registeredRequests := by
  obtain ⟨-, hst'⟩ := decryptFinalResults_ok_inv h
  subst hst'
  exact ⟨rfl, rfl, rfl, rfl, rfl, rfl, rfl⟩

/-- witness for the amended C1 theorem at the concrete reveal callback of
`stC`. -/
theorem completeReveal_changes_nothing_witness :
    stC'.datasetCount = stC.datasetCount ∧
    stC'.encryptedDatasets = stC.encryptedDatasets ∧
    stC'.analysisResults = stC.analysisResults ∧
    stC'.requestToDatasetId = stC.requestToDatasetId ∧
    stC'.nextRequestId = stC.nextRequestId ∧
    stC'.events = stC.events ∧
    stC'.registeredRequests = stC.registeredRequests :=
  completeReveal_changes_nothing env0 2 [5, 6] [] stC stC' rfl

/-- Claim C2, counterexample: after `traceB` (two `requestGWASAnalysis`
calls by the owner before any oracle callback) dataset 1 has two
outstanding registered-but-uncompleted requests in the analysis stage, so
"at most one outstanding request at a time per workflow stage" fails on a
reachable state. -/
theorem two_outstanding_same_stage_cex :
    (outstandingRequests stB 1 Stage.analysis).length = 2 ∧
    outstandingRequests stB 1 Stage.analysis =
      [{ reqId := 1, stage := Stage.analysis, datasetId := 1 },
       { reqId := 2, stage := Stage.analysis, datasetId := 1 }] :=
  ⟨by decide, by decide⟩

/-- Claim C2, amended: in every reachable state the correlation entries are
write-once — each request id is registered at most once, and a nonzero
`requestToDatasetId` entry is never overwritten by any further operation —
but a dataset may have several outstanding requests in the same workflow
stage, because a request does not change the dataset status. -/
theorem correlation_write_once (env : OracleEnv) (ops : List Op) (op : Op)
    (r : Nat) :
    ((execTrace env ops).registeredRequests.map RequestEntry.reqId).Nodup ∧
    ((execTrace env ops).requestToDatasetId r ≠ 0 →
      (execOp env (execTrace env ops) op).requestToDatasetId r =
        (execTrace env ops).requestToDatasetId r) := by
  have hInv := inv_execTrace env ops
  exact ⟨hInv.2.2.1, fun hr => requestToDatasetId_persistent env op r hInv hr⟩

/-- witness for the amended C2 theorem: the analysis correlation entry of
`stC` survives a further `requestResultDecryption` call. -/
theorem correlation_write_once_witness :
    (execOp env0 stC (Op.requestReveal 1 1)).requestToDatasetId 1 =
      stC.requestToDatasetId 1 :=
  (correlation_write_once env0 traceC (Op.requestReveal 1 1) 1).2 (by decide)

/-- Claim C3: every interleaved history assigns the n-th submitted dataset
the identifier n — the ghost list of assigned identifiers is exactly
`[1, ..., number of submits]`, hence 1-based, strictly increasing, unique
and never reused. -/
theorem submittedIds_canonical (env : OracleEnv) (ops : List Op) :
    (execTrace env ops).submittedIds =
      List.range' 1 (ops.countP (fun o => o.isSubmit)) ∧
    (execTrace env ops).submittedIds.Nodup ∧
    (execTrace env ops).submittedIds.Pairwise (· < ·) := by
  have h5 := (inv_execTrace env ops).2.2.2.2
  have hc := datasetCount_execTrace env ops
  rw [hc] at h5
  refine ⟨h5, ?_, ?_⟩
  · rw [h5]; exact List.nodup_range' _ _
  · rw [h5]; exact List.pairwise_lt_range' _ _

/-- witness for C3 on the concrete history `traceC` (one submit). -/
theorem submittedIds_canonical_witness :
    (execTrace env0 traceC).submittedIds = List.range' 1 1 :=
  (submittedIds_canonical env0 traceC).1

/-- Claim C4: calling either oracle callback with a request id that no
`requestGWASAnalysis` or `requestResultDecryption` call ever registered
fails with `InvalidRequest` and leaves the state unchanged. -/
theorem unregistered_request_invalid (env : OracleEnv) (ops : List Op)
    (r : Nat) (ct pf : List Nat)
    (h : ∀ e ∈ (execTrace env ops).registeredRequests, e.reqId ≠ r) :
    performAnalysis env r ct pf (execTrace env ops) =
      Except.error ContractError.invalidRequest ∧
    decryptFinalResults env r ct pf (execTrace env ops) =
      Except.error ContractError.invalidRequest ∧
    execOp env (execTrace env ops) (Op.completeAnalysis r ct pf) =
      execTrace env ops ∧
    execOp env (execTrace env ops) (Op.completeReveal r ct pf) =
      execTrace env ops := by
  have hreg := (inv_execTrace env ops).2.2.2.1
  have h0 : (execTrace env ops).requestToDatasetId r = 0 := by
    by_contra h0
    obtain ⟨e, he, hee⟩ := hreg r h0
    exact h e he hee
  have hp : performAnalysis env r ct pf (execTrace env ops) =
      Except.error ContractError.invalidRequest := by
    simp [performAnalysis, h0]
  have hd : decryptFinalResults env r ct pf (execTrace env ops) =
      Except.error ContractError.invalidRequest := by
    simp [decryptFinalResults, h0]
  exact ⟨hp, hd, by simp [execOp, hp, applyResult],
    by simp [execOp, hd, applyResult]⟩

/-- witness for C4: request id 5 in the freshly deployed state. -/
theorem unregistered_request_invalid_witness :
    performAnalysis env0 5 [] [] (execTrace env0 []) =
      Except.error ContractError.invalidRequest :=
  (unregistered_request_invalid env0 [] 5 [] [] (by decide)).1

/-- Claim C5: for an existing dataset, any caller other than the owning
institution gets `NotAuthorized` from both `requestGWASAnalysis` and
`requestResultDecryption` (the `onlyInstitution` modifier fires first),
and the reverted call leaves the state unchanged. -/
theorem nonowner_request_notAuthorized (env : OracleEnv)
    (st : ContractState) (sender datasetId : Nat)
    (hlo : 1 ≤ datasetId) (hhi : datasetId ≤ st.datasetCount)
    (hne : sender ≠ (st.encryptedDatasets datasetId).institution) :
    requestGWASAnalysis sender datasetId st =
      Except.error ContractError.notAuthorized ∧
    requestResultDecryption sender datasetId st =
      Except.error ContractError.notAuthorized ∧
    execOp env st (Op.requestAnalysis sender datasetId) = st ∧
    execOp env st (Op.requestReveal sender datasetId) = st := by
  have h1 : requestGWASAnalysis sender datasetId st =
      Except.error ContractError.notAuthorized := by
    simp [requestGWASAnalysis, hne]
  have h2 : requestResultDecryption sender datasetId st =
      Except.error ContractError.notAuthorized := by
    simp [requestResultDecryption, hne]
  exact ⟨h1, h2, by simp [execOp, h1, applyResult],
    by simp [execOp, h2, applyResult]⟩

/-- witness for C5: address 2 against dataset 1 of `stA`, owned by
address 1. -/
theorem nonowner_request_notAuthorized_witness :
    requestGWASAnalysis 2 1 stA = Except.error ContractError.notAuthorized :=
  (nonowner_request_notAuthorized env0 stA 2 1 (by decide) (by decide)
    (by decide)).1

/-- Claim C6: once `performAnalysis` has succeeded for a request id, a
second `performAnalysis` call with the same request id fails with
`AlreadyAnalyzed` and leaves the stored analysis result (and the whole
state) unchanged. -/
theorem completeAnalysis_second_call_alreadyAnalyzed (env env2 : OracleEnv)
    (r : Nat) (ct pf ct2 pf2 : List Nat) (st st' : ContractState)
    (h : performAnalysis env r ct pf st = Except.ok st') :
    performAnalysis env2 r ct2 pf2 st' =
      Except.error ContractError.alreadyAnalyzed ∧
    execOp env2 st' (Op.completeAnalysis r ct2 pf2) = st' ∧
    (execOp env2 st' (Op.completeAnalysis r ct2 pf2)).analysisResults =
      st'.analysisResults := by
  obtain ⟨hne, hrev, g, p, rest, hdec, hp, ho, hst'⟩ := performAnalysis_ok_inv h
  subst hst'
  have h2 : performAnalysis env2 r ct2 pf2 ({ st with
      analysisResults := setAt st.analysisResults (st.requestToDatasetId r)
        { encryptedPValue := g + p, encryptedOddsRatio := g * p,
          isRevealed := true },
      events := st.events ++ [Event.ResultDecrypted (st.requestToDatasetId r)],
      completedRequests := st.completedRequests ++ [r] } : ContractState) =
      Except.error ContractError.alreadyAnalyzed := by
    simp [performAnalysis, hne, setAt_same]
  exact ⟨h2, by simp [execOp, h2, applyResult], by simp [execOp, h2, applyResult]⟩

/-- witness for C6: the analysis callback of `traceA` completed in `stD`; a
repeat callback on request 1 fails `AlreadyAnalyzed`. -/
theorem completeAnalysis_second_call_witness :
    performAnalysis env0 1 [9, 9] [] stD =
      Except.error ContractError.alreadyAnalyzed :=
  (completeAnalysis_second_call_alreadyAnalyzed env0 env0 1 [2, 3] []
    [9, 9] [] stA stD rfl).1

/-- Claim C7: a successful `performAnalysis` stores exactly
`pValue = genotype + phenotype` and `oddsRatio = genotype * phenotype` for
the first two decoded 32-bit words, as exact unsigned arithmetic; when the
sum or the product reaches `2^32` the call reverts with the checked
arithmetic panic instead of wrapping. -/
theorem performAnalysis_checked_stub_arithmetic (env : OracleEnv) (r : Nat)
    (ct pf : List Nat) (st : ContractState) (g p : Nat) (rest : List Nat)
    (h1 : st.requestToDatasetId r ≠ 0)
    (h2 : (st.analysisResults (st.requestToDatasetId r)).isRevealed = false)
    (h3 : env.sigOk r ct pf = true)
    (h4 : env.decodeU32Array ct = some (g :: p :: rest)) :
    (g + p < 2 ^ 32 → g * p < 2 ^ 32 →
      performAnalysis env r ct pf st = Except.ok { st with
        analysisResults := setAt st.analysisResults (st.requestToDatasetId r)
          { encryptedPValue := g + p, encryptedOddsRatio := g * p,
            isRevealed := true },
        events := st.events ++
          [Event.ResultDecrypted (st.requestToDatasetId r)],
        completedRequests := st.completedRequests ++ [r] }) ∧
    (2 ^ 32 ≤ g + p ∨ 2 ^ 32 ≤ g * p →
      performAnalysis env r ct pf st =
        Except.error ContractError.arithmeticOverflow) := by
  constructor
  · intro hp ho
    simp [performAnalysis, h1, h2, h3, h4, calculatePValue_of_lt hp,
      calculateOddsRatio_of_lt ho]
  · intro hov
    rcases hov with hov | hov
    · simp [performAnalysis, h1, h2, h3, h4, calculatePValue_of_ge hov]
    · by_cases hp : g + p < 2 ^ 32
      · simp [performAnalysis, h1, h2, h3, h4, calculatePValue_of_lt hp,
          calculateOddsRatio_of_ge hov]
      · simp [performAnalysis, h1, h2, h3, h4,
          calculatePValue_of_ge (Nat.le_of_not_lt hp)]

/-- witness for C7: on `stA`, cleartext decoding to `[2, 3]` stores
`5 = 2 + 3` and `6 = 2 * 3`; cleartext decoding to two copies of `2^31`
reverts with the overflow panic since their sum is `2^32`. -/
theorem performAnalysis_checked_stub_arithmetic_witness :
    performAnalysis env0 1 [2, 3] [] stA = Except.ok { stA with
      analysisResults := setAt stA.analysisResults 1
        { encryptedPValue := 2 + 3, encryptedOddsRatio := 2 * 3,
          isRevealed := true },
      events := stA.events ++ [Event.ResultDecrypted 1],
      completedRequests := stA.completedRequests ++ [1] } ∧
    performAnalysis env0 1 [2147483648, 2147483648] [] stA =
      Except.error ContractError.arithmeticOverflow :=
  ⟨(performAnalysis_checked_stub_arithmetic env0 1 [2, 3] [] stA 2 3 []
      (by decide) (by decide) rfl rfl).1 (by decide) (by decide),
   (performAnalysis_checked_stub_arithmetic env0 1 [2147483648, 2147483648]
      [] stA 2147483648 2147483648 [] (by decide) (by decide) rfl rfl).2
      (Or.inl (by decide))⟩

end GwasLedger

namespace GwasClient

theorem readRecord_id {env : ClientEnv} {store : Store} {key : String}
    {rec : GwasData} (h : readRecord env store key = some rec) :
    rec.id = key := by
  by_cases hl : (store ("gwas_" ++ key)).length > 0
  · rcases hp : env.parseRecord (store ("gwas_" ++ key)) with _ | ds
    · simp [readRecord, hl, hp] at h
    · simp only [readRecord, hl, hp, if_pos, Option.some.injEq] at h
      subst h
      rfl
  · simp [readRecord, hl] at h

theorem datasetIdOf_ne_keys (nowMs : Nat) (rand : String) :
    datasetIdOf nowMs rand ≠ "keys" := by
  intro h
  have hd := congrArg String.data h
  simp only [datasetIdOf, String.data_append] at hd
  have hmem : '-' ∈ (toString nowMs).data ++ ['-'] ++ rand.data := by simp
  rw [hd] at hmem
  revert hmem
  decide

theorem gwas_key_inj {a b : String} (h : ("gwas_" ++ a : String) = "gwas_" ++ b) :
    a = b := by
  have hd := congrArg String.data h
  simp only [String.data_append] at hd
  exact String.ext (List.append_cancel_left hd)

theorem gwas_id_ne_gwas_keys (nowMs : Nat) (rand : String) :
    ("gwas_" ++ datasetIdOf nowMs rand : String) ≠ "gwas_keys" := by
  intro h
  have hsplit : ("gwas_keys" : String) = "gwas_" ++ "keys" := by decide
  exact datasetIdOf_ne_keys nowMs rand (gwas_key_inj (h.trans hsplit))

/-- Claim C8: `loadDatasets` returns the empty list when the index value
fails to parse (fail-open), is a permutation of the records that survive
the per-key fetch-and-parse loop (each unparseable referenced record is
skipped, the rest kept — in particular no returned record comes from an
unparseable key), and the result is sorted by timestamp descending. -/
theorem loadDatasets_failopen_skips_sorts (env : ClientEnv) (store : Store) :
    (env.parseKeys (store "gwas_keys") = none → loadDatasets env store = []) ∧
    (loadDatasets env store).Perm (survivingRecords env store) ∧
    (loadDatasets env store).Pairwise
      (fun a b => b.timestamp ≤ a.timestamp) ∧
    (∀ key ∈ indexKeys env store,
      env.parseRecord (store ("gwas_" ++ key)) = none →
      ∀ rec ∈ loadDatasets env store, rec.id ≠ key) := by
  refine ⟨?_, ?_, ?_, ?_⟩
  · intro h
    have hik : indexKeys env store = [] := by
      by_cases hl : (store "gwas_keys").length > 0 <;> simp [indexKeys, h, hl]
    simp [loadDatasets, survivingRecords, hik]
  · exact List.mergeSort_perm _ _
  · have hs := @List.sorted_mergeSort GwasData
      (fun a b : GwasData => decide (b.timestamp ≤ a.timestamp))
      (fun a b c hab hbc => by
        simp only [decide_eq_true_eq] at *
        exact le_trans hbc hab)
      (fun a b => by
        simp only [Bool.or_eq_true, decide_eq_true_eq]
        exact le_total b.timestamp a.timestamp)
      (survivingRecords env store)
    exact hs.imp (fun h => of_decide_eq_true h)
  · intro key hk hnone rec hrec hid
    have hmem : rec ∈ survivingRecords env store :=
      (List.mem_mergeSort).mp hrec
    obtain ⟨k, hk2, hr2⟩ := List.mem_filterMap.mp hmem
    have hkk : k = key := by rw [← readRecord_id hr2, hid]
    subst hkk
    by_cases hl : (store ("gwas_" ++ k)).length > 0 <;>
      simp [readRecord, hnone, hl] at hr2

/-- witness for C8: the concrete store with unparseable index bytes yields
the empty list. -/
theorem loadDatasets_failopen_witness : loadDatasets envC storeBad = [] :=
  (loadDatasets_failopen_skips_sorts envC storeBad).1 (by decide)

/-- Claim C9: after a successful `uploadDataset` against a store whose
(de)serialization round-trips (well-formed store), `loadDatasets` returns
a record whose visible fields — institution, study type, timestamp,
status — equal those of the created dataset. -/
theorem createDataset_roundtrip (env : ClientEnv) (store : Store)
    (account : String) (nds : NewDataset) (nowMs : Nat) (rand : String)
    (hrec : env.parseRecord (env.serRecord (uploadRecord env account nds nowMs)) =
      some (uploadRecord env account nds nowMs))
    (hrecne : env.serRecord (uploadRecord env account nds nowMs) ≠ [])
    (hkeys : env.parseKeys (env.serKeys (uploadIndex env store account nds nowMs rand)) =
      some (uploadIndex env store account nds nowMs rand))
    (hkeysne : env.serKeys (uploadIndex env store account nds nowMs rand) ≠ []) :
    ∃ rec ∈ loadDatasets env (uploadDataset env store account nds nowMs rand).1,
      rec.institution = account ∧ rec.studyType = nds.studyType ∧
      rec.timestamp = (nowMs / 1000 : Nat) ∧ rec.status = "pending" := by
  have hkeysbytes : (uploadDataset env store account nds nowMs rand).1 "gwas_keys" =
      env.serKeys (uploadIndex env store account nds nowMs rand) := by
    simp [uploadDataset]
  have hlen : ((uploadDataset env store account nds nowMs rand).1 "gwas_keys").length > 0 := by
    rw [hkeysbytes]; exact List.length_pos.mpr hkeysne
  have hik : indexKeys env (uploadDataset env store account nds nowMs rand).1 =
      uploadIndex env store account nds nowMs rand := by
    simp [indexKeys, hkeysbytes, hlen, hkeys, hkeysne]
  have hrecbytes : (uploadDataset env store account nds nowMs rand).1
      ("gwas_" ++ datasetIdOf nowMs rand) =
      env.serRecord (uploadRecord env account nds nowMs) := by
    simp [uploadDataset, store1Of, gwas_id_ne_gwas_keys nowMs rand]
  have hread : readRecord env (uploadDataset env store account nds nowMs rand).1
      (datasetIdOf nowMs rand) =
      some (loadedUploadRecord env account nds nowMs rand) := by
    simp [readRecord, hrecbytes, List.length_pos.mpr hrecne, hrec]
    simp [uploadRecord, loadedUploadRecord]
  have hdidmem : datasetIdOf nowMs rand ∈
      uploadIndex env store account nds nowMs rand := by
    rw [uploadIndex]
    exact List.mem_append_right _ (List.mem_singleton_self _)
  have hsurv : loadedUploadRecord env account nds nowMs rand ∈
      survivingRecords env (uploadDataset env store account nds nowMs rand).1 := by
    rw [survivingRecords, hik]
    exact List.mem_filterMap.mpr ⟨datasetIdOf nowMs rand, hdidmem, hread⟩
  exact ⟨_, List.mem_mergeSort.mpr hsurv, rfl, rfl, rfl, rfl⟩

/-- witness for C9 at the concrete upload against the empty store. -/
theorem createDataset_roundtrip_witness :
    ∃ rec ∈ loadDatasets envW (uploadDataset envW storeEmpty "acct" ndsW 1000 "x").1,
      rec.institution = "acct" ∧ rec.studyType = ndsW.studyType ∧
      rec.timestamp = (1000 / 1000 : Nat) ∧ rec.status = "pending" :=
  createDataset_roundtrip envW storeEmpty "acct" ndsW 1000 "x"
    (by decide) (by decide) (by decide) (by decide)

/-- Claim C10: when the stored index value is non-empty but unparseable at
upload time, `uploadDataset` still succeeds and writes back an index
holding only the new identifier: every previously indexed dataset is
dropped from the index, its record bytes stay stored under their key, and
(assuming the rewritten index round-trips) `loadDatasets` afterwards can
only return records with the new identifier. -/
theorem upload_corrupt_index_drops_previous (env : ClientEnv) (store : Store)
    (account : String) (nds : NewDataset) (nowMs : Nat) (rand : String)
    (hne : store "gwas_keys" ≠ [])
    (hbad : env.parseKeys (store "gwas_keys") = none) :
    uploadIndex env store account nds nowMs rand = [datasetIdOf nowMs rand] ∧
    (uploadDataset env store account nds nowMs rand).1 "gwas_keys" =
      env.serKeys [datasetIdOf nowMs rand] ∧
    (∀ k, k ≠ "gwas_keys" → k ≠ "gwas_" ++ datasetIdOf nowMs rand →
      (uploadDataset env store account nds nowMs rand).1 k = store k) ∧
    (env.parseKeys (env.serKeys [datasetIdOf nowMs rand]) =
        some [datasetIdOf nowMs rand] →
      env.serKeys [datasetIdOf nowMs rand] ≠ [] →
      ∀ rec ∈ loadDatasets env (uploadDataset env store account nds nowMs rand).1,
        rec.id = datasetIdOf nowMs rand) := by
  have hstore1keys : store1Of env store account nds nowMs rand "gwas_keys" =
      store "gwas_keys" := by
    simp [store1Of, Ne.symm (gwas_id_ne_gwas_keys nowMs rand)]
  have hui : uploadIndex env store account nds nowMs rand =
      [datasetIdOf nowMs rand] := by
    simp [uploadIndex, indexKeys, hstore1keys, hbad, hne]
  have hkeysw : (uploadDataset env store account nds nowMs rand).1 "gwas_keys" =
      env.serKeys [datasetIdOf nowMs rand] := by
    simp [uploadDataset, hui]
  refine ⟨hui, hkeysw, ?_, ?_⟩
  · intro k hk1 hk2
    simp [uploadDataset, store1Of, hk1, hk2]
  · intro hks hksne rec hrec
    have hik : indexKeys env (uploadDataset env store account nds nowMs rand).1 =
        [datasetIdOf nowMs rand] := by
      simp [indexKeys, hkeysw, hks, hksne]
    have hmem : rec ∈ survivingRecords env
        (uploadDataset env store account nds nowMs rand).1 :=
      (List.mem_mergeSort).mp hrec
    rw [survivingRecords, hik] at hmem
    obtain ⟨k, hk2, hr2⟩ := List.mem_filterMap.mp hmem
    simp only [List.mem_singleton] at hk2
    subst hk2
    exact readRecord_id hr2

/-- witness for C10: upload against the concrete store with corrupt index
bytes; the rewritten index names only the new dataset and the previously
stored record bytes under `gwas_old` are untouched. -/
theorem upload_corrupt_index_drops_previous_witness :
    uploadIndex envW storeC10 "acct" ndsW 1000 "x" = ["1000-x"] ∧
    (uploadDataset envW storeC10 "acct" ndsW 1000 "x").1 "gwas_old" =
      storeC10 "gwas_old" :=
  ⟨(upload_corrupt_index_drops_previous envW storeC10 "acct" ndsW 1000 "x"
      (by decide) (by decide)).1,
   (upload_corrupt_index_drops_previous envW storeC10 "acct" ndsW 1000 "x"
      (by decide) (by decide)).2.2.1 "gwas_old" (by decide) (by decide)⟩

end GwasClient
